import Mathlib

/-!
# lxmin `restore`: a shallow embedding of `restoreMain` (restore.go)

The command `restore INSTANCENAME BACKUPNAME` downloads a backup archive from
an object-storage bucket, hands it to `lxc import` / `lxc start` in a
background goroutine while a spinner UI runs in another goroutine, and finally
removes the local archive.

The embedding has three layers.

* Library functions the source calls and whose result matters
  (`strings.TrimSpace`, `cli.Args.Get`, `path.Join`) are written out as
  executable functions.
* Every call that leaves the process (lxc, the object store, the filesystem,
  the terminal UI) is answered by an environment `World` and recorded, with
  its answer, as an `Event` of the run's trace.
* The sequential part of `restoreMain` (lines 59-112) is the function
  `restoreMainEnter`; the three concurrent activities of lines 113-138 (the UI
  goroutine, the lxc goroutine and the main goroutine blocked in `wg.Wait`)
  are program counters moved by `uiStep`, `orchStep` and `mainStep`, and a run
  is fixed by a schedule: the list of goroutines in the order they are given a
  turn.

What the model leaves open: `p.Start()` may return at any point of the run,
with or without an error (the spinner model is not part of restore.go);
`p.Send` never blocks; `log.Fatalln` and `cli.ShowAppHelpAndExit` end the
process with status 1. A run is over when `restoreMain` has returned or the
process has exited. The caller of `restoreMain` is not part of restore.go, so
the goroutines may still move between the return and the end of the process:
what is proved of every state of every schedule covers the states at which a
run is over, and nothing is proved from the assumption that a goroutine ran
to its end.
-/

namespace Lxmin

/-! ## Library functions -/

/-- Go's `unicode.IsSpace`: the Latin-1 spaces and the code points with the
Unicode White_Space property. -/
def isSpace (c : Char) : Bool :=
  let n := c.toNat
  (9 ≤ n && n ≤ 13) || n == 0x20 || n == 0x85 || n == 0xA0 || n == 0x1680 ||
  (0x2000 ≤ n && n ≤ 0x200A) || n == 0x2028 || n == 0x2029 || n == 0x202F ||
  n == 0x205F || n == 0x3000

/-- Go's `strings.TrimSpace`: drop the leading and the trailing white space. -/
def trimSpace (s : String) : String :=
  String.mk (((s.data.dropWhile isSpace).reverse.dropWhile isSpace).reverse)

/-- The method `cli.Args.Get`: the n-th argument, the empty string when there
is none. -/
def argsGet (args : List String) (n : Nat) : String :=
  args.getD n ""

/-- Split at every slash, keeping empty pieces (`cur` holds the piece being
read, reversed). -/
def splitSlash : List Char → List Char → List (List Char)
  | [], cur => [cur.reverse]
  | c :: cs, cur =>
    if c = '/' then cur.reverse :: splitSlash cs [] else splitSlash cs (c :: cur)

/-- One pass of `path.Clean` over the path's elements; `out` is the stack of
kept elements, last one first. -/
def cleanElems (rooted : Bool) : List (List Char) → List (List Char) → List (List Char)
  | [], out => out.reverse
  | e :: es, out =>
    if e = [] ∨ e = ['.'] then cleanElems rooted es out
    else if e = ['.', '.'] then
      match out with
      | [] => if rooted then cleanElems rooted es [] else cleanElems rooted es [e]
      | top :: rest =>
        if top = ['.', '.'] then cleanElems rooted es (e :: out)
        else cleanElems rooted es rest
    else cleanElems rooted es (e :: out)

/-- Elements joined with single slashes. -/
def joinSlash : List (List Char) → List Char
  | [] => []
  | [e] => e
  | e :: es => e ++ '/' :: joinSlash es

/-- Go's `path.Clean`: the shortest path equivalent by purely lexical
processing (no empty or `.` element, no inner `..`, no `..` at the root). -/
def pathClean (p : String) : String :=
  if p.data = [] then "." else
  let rooted := p.data.head? = some '/'
  let body := joinSlash (cleanElems rooted (splitSlash p.data []) [])
  if rooted then String.mk ('/' :: body)
  else if body = [] then "." else String.mk body

/-- Go's `path.Join`: the non-empty elements joined with slashes and cleaned;
the empty string when every element is empty. -/
def pathJoin (elem : List String) : String :=
  match elem.filter (fun e => e.data ≠ []) with
  | [] => ""
  | es => pathClean (String.mk (joinSlash (es.map String.data)))

/-! ## The environment -/

/-- A non-nil Go `error`, by its message. `Option GoError` is Go's `error`,
`none` being `nil`. -/
abbrev GoError := String

/-- What `p.Send` carries: `p.Send(err)` or `p.Send(true)`. -/
inductive Msg where
  | err (e : GoError)
  | ok
  deriving DecidableEq, Repr

/-- The calls of `restoreMain` that leave the process, each with the answer
it got. -/
inductive Event where
  /-- The help printed by `cli.ShowAppHelpAndExit`. -/
  | showAppHelp
  | checkInstance (name : String) (res : Option GoError)
  /-- The call `globalContext.Clnt.GetObject(ctx, bucket, key, opts)`. -/
  | getObject (bucket key : String) (res : Option GoError)
  /-- The call `obj.Stat()`: the size read from the object's info, and the error. -/
  | objStat (size : Int) (res : Option GoError)
  | objClose
  /-- The call `pb.Start64(oinfo.Size)`. -/
  | progressStart (total : Int)
  | osCreate (name : String) (res : Option GoError)
  /-- The call `io.Copy(w, barReader)`: bytes written and error. -/
  | ioCopy (written : Int) (res : Option GoError)
  | barReaderClose
  /-- The call `p.Start()` returned. -/
  | uiStart (res : Option GoError)
  /-- The call `cmd.Run()` of the command with these arguments. -/
  | cmdRun (argv : List String) (res : Option GoError)
  | send (m : Msg)
  | logFatal (e : GoError)
  | osRemove (name : String) (res : Option GoError)
  deriving DecidableEq, Repr

/-- The environment of one run: the ambient configuration `globalContext` and
the answer of every collaborator. -/
structure World where
  /-- The field `globalContext.Bucket`. -/
  bucket : String
  /-- The field `globalContext.StagingRoot`. -/
  stagingRoot : String
  checkInstance : String → Option GoError
  getObject : String → String → Option GoError
  objStat : String → String → Int × Option GoError
  osCreate : String → Option GoError
  ioCopy : Int × Option GoError
  uiStart : Option GoError
  cmdRun : List String → Option GoError
  osRemove : String → Option GoError

/-! ## The state of a run -/

/-- Where the main goroutine is once the sequential part is over. -/
inductive MainPc where
  /-- Blocked in `wg.Wait()`. -/
  | waiting
  /-- Past `wg.Wait()`, about to call `os.Remove(localPath)`. -/
  | removing
  /-- The function `restoreMain` returned this error value. -/
  | returned (r : Option GoError)
  /-- The main goroutine ended the process through `cli.ShowAppHelpAndExit`. -/
  | helpExit
  deriving DecidableEq, Repr

/-- Where the goroutine of lines 113-118 is. -/
inductive UiPc where
  | notSpawned
  /-- Inside `p.Start()`. -/
  | running
  /-- The call `p.Start()` returned `e`; about to `log.Fatalln(e)`. -/
  | failed (e : GoError)
  /-- The goroutine called `log.Fatalln`. -/
  | fataled
  /-- The goroutine ended and `wg.Done()` ran. -/
  | done
  deriving DecidableEq, Repr

/-- Where the goroutine of lines 120-134 is. -/
inductive OrchPc where
  | notSpawned
  /-- About to run `cmd` (the import) at line 121. -/
  | runImport
  /-- The import failed with `e`; about to `p.Send(e)` at line 122. -/
  | importFailedSend (e : GoError)
  /-- About to `log.Fatalln(e)` at line 123. -/
  | importFailedFatal (e : GoError)
  /-- The import succeeded; about to reassign `cmd` and run it (lines 126-128). -/
  | runStart
  /-- The start failed with `e`; about to `p.Send(e)` at line 129. -/
  | startFailedSend (e : GoError)
  /-- About to `log.Fatalln(e)` at line 130. -/
  | startFailedFatal (e : GoError)
  /-- Both succeeded; about to `p.Send(true)` at line 133. -/
  | sendTrue
  /-- The goroutine ended the process at line 123. -/
  | importFataled (e : GoError)
  /-- The goroutine ended the process at line 130. -/
  | startFataled (e : GoError)
  /-- The goroutine reached its end. -/
  | finished
  deriving DecidableEq, Repr

/-- The state of one run of `restoreMain`. -/
structure State where
  /-- The calls made so far, oldest first. -/
  trace : List Event
  /-- The local `instance`. -/
  inst : String
  /-- The local `localPath`. -/
  localPath : String
  /-- The arguments of the shared variable `cmd`. -/
  cmd : List String
  main : MainPc
  ui : UiPc
  orch : OrchPc
  /-- The exit status once the process has exited (`os.Exit`). -/
  exited : Option Nat
  deriving DecidableEq, Repr

/-! ## The concurrent part: lines 113-138 -/

/-- The call `log.Fatalln(e)`: the error is printed and the process exits with
status 1 (`os.Exit(1)`); no deferred function runs. -/
def logFatalln (e : GoError) (s : State) : State :=
  { s with trace := s.trace ++ [Event.logFatal e], exited := some 1 }

/-- One move of the goroutine of lines 113-118:
`defer wg.Done(); if err := p.Start(); err != nil { log.Fatalln(err) }`.
The call `p.Start()` blocks for as long as the UI runs, so its return is one
move that may come at any point of the run. -/
def uiStep (w : World) (s : State) : Option State :=
  match s.ui with
  | UiPc.running =>
    match w.uiStart with
    | some e => some { s with trace := s.trace ++ [Event.uiStart (some e)], ui := UiPc.failed e }
    | none => some { s with trace := s.trace ++ [Event.uiStart none], ui := UiPc.done }
  | UiPc.failed e => some { logFatalln e s with ui := UiPc.fataled }
  | _ => none

/-- One move of the goroutine of lines 120-134: run the import; on error send
it and `log.Fatalln`; else set `cmd` to the start command and run it; on error
send it and `log.Fatalln`; else send `true`. -/
def orchStep (w : World) (s : State) : Option State :=
  match s.orch with
  | OrchPc.runImport =>
    match w.cmdRun s.cmd with
    | some e => some { s with trace := s.trace ++ [Event.cmdRun s.cmd (some e)],
                              orch := OrchPc.importFailedSend e }
    | none => some { s with trace := s.trace ++ [Event.cmdRun s.cmd none],
                            orch := OrchPc.runStart }
  | OrchPc.importFailedSend e =>
    some { s with trace := s.trace ++ [Event.send (Msg.err e)], orch := OrchPc.importFailedFatal e }
  | OrchPc.importFailedFatal e => some { logFatalln e s with orch := OrchPc.importFataled e }
  | OrchPc.runStart =>
    let cmd := ["lxc", "start", s.inst]
    match w.cmdRun cmd with
    | some e => some { s with cmd := cmd, trace := s.trace ++ [Event.cmdRun cmd (some e)],
                              orch := OrchPc.startFailedSend e }
    | none => some { s with cmd := cmd, trace := s.trace ++ [Event.cmdRun cmd none],
                            orch := OrchPc.sendTrue }
  | OrchPc.startFailedSend e =>
    some { s with trace := s.trace ++ [Event.send (Msg.err e)], orch := OrchPc.startFailedFatal e }
  | OrchPc.startFailedFatal e => some { logFatalln e s with orch := OrchPc.startFataled e }
  | OrchPc.sendTrue =>
    some { s with trace := s.trace ++ [Event.send Msg.ok], orch := OrchPc.finished }
  | _ => none

/-- One move of the main goroutine in lines 136-138: `wg.Wait()` returns once
the UI goroutine has run `wg.Done()`; then `return os.Remove(localPath)`. -/
def mainStep (w : World) (s : State) : Option State :=
  match s.main with
  | MainPc.waiting => if s.ui = UiPc.done then some { s with main := MainPc.removing } else none
  | MainPc.removing =>
    some { s with trace := s.trace ++ [Event.osRemove s.localPath (w.osRemove s.localPath)],
                  main := MainPc.returned (w.osRemove s.localPath) }
  | _ => none

/-- The three activities of the importing phase. -/
inductive Goroutine where
  | main
  | ui
  | orch
  deriving DecidableEq, Repr

/-- One move of goroutine `g`, `none` when it cannot move: it is blocked, it
has ended, or the process has exited. -/
def step (w : World) (g : Goroutine) (s : State) : Option State :=
  if s.exited.isSome then none else
  match g with
  | Goroutine.main => mainStep w s
  | Goroutine.ui => uiStep w s
  | Goroutine.orch => orchStep w s

/-- The state after the goroutines took their turns in the order of the
schedule; a goroutine that cannot move when its turn comes is skipped. -/
def run (w : World) : List Goroutine → State → State
  | [], s => s
  | g :: gs, s => run w gs ((step w g s).getD s)

/-! ## The sequential part: lines 59-112 -/

/-- A state in which no goroutine was spawned. -/
def stopped (trace : List Event) (inst : String) (main : MainPc) (exited : Option Nat) : State :=
  { trace := trace, inst := inst, localPath := "", cmd := [], main := main,
    ui := UiPc.notSpawned, orch := OrchPc.notSpawned, exited := exited }

/-- The call `cli.ShowAppHelpAndExit(c, 1)`: the help is printed and the
process exits with status 1. -/
def showAppHelpAndExit (inst : String) : State :=
  stopped [Event.showAppHelp] inst MainPc.helpExit (some 1)

/-- Lines 59-112 of `restoreMain`, from the argument checks to the point where
both goroutines are spawned and the main goroutine blocks in `wg.Wait()`. -/
def restoreMainEnter (w : World) (args : List String) : State :=
  if args.length > 2 then showAppHelpAndExit "" else
  let inst := trimSpace (argsGet args 0)
  if inst = "" then showAppHelpAndExit inst else
  let backup := trimSpace (argsGet args 1)
  if backup = "" then showAppHelpAndExit inst else
  let t1 := [Event.checkInstance inst (w.checkInstance inst)]
  match w.checkInstance inst with
  | none => stopped t1 inst (MainPc.returned none) none
  | some _ =>
    let key := pathJoin [inst, backup]
    let t2 := t1 ++ [Event.getObject w.bucket key (w.getObject w.bucket key)]
    match w.getObject w.bucket key with
    | some e => stopped t2 inst (MainPc.returned (some e)) none
    | none =>
      let oinfo := w.objStat w.bucket key
      let t3 := t2 ++ [Event.objStat oinfo.1 oinfo.2]
      match oinfo.2 with
      | some e => stopped (t3 ++ [Event.objClose]) inst (MainPc.returned (some e)) none
      | none =>
        let t4 := t3 ++ [Event.progressStart oinfo.1, Event.osCreate backup (w.osCreate backup)]
        match w.osCreate backup with
        | some e => stopped (t4 ++ [Event.barReaderClose]) inst (MainPc.returned (some e)) none
        | none =>
          let t5 := t4 ++ [Event.ioCopy w.ioCopy.1 w.ioCopy.2, Event.barReaderClose]
          let localPath := pathJoin [w.stagingRoot, backup]
          { trace := t5, inst := inst, localPath := localPath,
            cmd := ["lxc", "import", localPath], main := MainPc.waiting,
            ui := UiPc.running, orch := OrchPc.runImport, exited := none }

/-- The function `restoreMain` run on the arguments `args` in the environment
`w` under the schedule `sched`. -/
def restoreMain (w : World) (args : List String) (sched : List Goroutine) : State :=
  run w sched (restoreMainEnter w args)

/-! ## Reading a trace -/

/-- The argument lists of the external commands run, in order. -/
def lxcCalls : List Event → List (List String)
  | [] => []
  | Event.cmdRun argv _ :: t => argv :: lxcCalls t
  | _ :: t => lxcCalls t

/-- The messages passed to `p.Send`, in order. -/
def sends : List Event → List Msg
  | [] => []
  | Event.send m :: t => m :: sends t
  | _ :: t => sends t

/-- The names passed to `os.Remove`, in order. -/
def removes : List Event → List String
  | [] => []
  | Event.osRemove name _ :: t => name :: removes t
  | _ :: t => removes t

/-- The names of the files `os.Create` did create, in order. -/
def created : List Event → List String
  | [] => []
  | Event.osCreate name none :: t => name :: created t
  | _ :: t => created t

/-- An event of the lxc goroutine: a command run or a message sent. -/
def Event.isOrch : Event → Bool
  | Event.cmdRun _ _ => true
  | Event.send _ => true
  | _ => false

/-- A run of `lxc start ...`. -/
def Event.isStart : Event → Bool
  | Event.cmdRun ("lxc" :: "start" :: _) _ => true
  | _ => false

/-- A run of `lxc import ...` that returned no error. -/
def Event.isImportOk : Event → Bool
  | Event.cmdRun ("lxc" :: "import" :: _) none => true
  | _ => false

/-- A run of `lxc import ...` that returned an error. -/
def Event.isImportFailed : Event → Bool
  | Event.cmdRun ("lxc" :: "import" :: _) (some _) => true
  | _ => false

/-- A run of `lxc start ...` that returned no error. -/
def Event.isStartOk : Event → Bool
  | Event.cmdRun ("lxc" :: "start" :: _) none => true
  | _ => false

/-- A call of `os.Remove`. -/
def Event.isRemove : Event → Bool
  | Event.osRemove _ _ => true
  | _ => false

/-- The UI stopping without error (`p.Start()` returned nil), or a call of
`os.Remove`. -/
def Event.isStopOrRemove : Event → Bool
  | Event.uiStart none => true
  | Event.osRemove _ _ => true
  | _ => false

/-- The number of turns the lxc goroutine has taken when it stands at a
program counter. -/
def orchTurns : OrchPc → Nat
  | OrchPc.notSpawned => 0
  | OrchPc.runImport => 0
  | OrchPc.importFailedSend _ => 1
  | OrchPc.importFailedFatal _ => 2
  | OrchPc.importFataled _ => 3
  | OrchPc.runStart => 1
  | OrchPc.startFailedSend _ => 2
  | OrchPc.startFailedFatal _ => 3
  | OrchPc.startFataled _ => 4
  | OrchPc.sendTrue => 2
  | OrchPc.finished => 3

/-- The lxc goroutine is over: it reached its end or ended the process. -/
def orchEnded (s : State) : Bool :=
  match s.orch with
  | OrchPc.finished => true
  | OrchPc.importFataled _ => true
  | OrchPc.startFataled _ => true
  | _ => false

/-- The message the lxc goroutine of state `s` is bound to send: the error of
the first failing command, `true` when neither fails. -/
def terminalMsg (w : World) (s : State) : Msg :=
  match w.cmdRun ["lxc", "import", s.localPath] with
  | some e => Msg.err e
  | none =>
    match w.cmdRun ["lxc", "start", s.inst] with
    | some e => Msg.err e
    | none => Msg.ok

/-! ## The filesystem

A file is named by its cleaned absolute path; the working directory `cwd` of
the process gives relative names their meaning. -/

/-- The file a name denotes in a process with working directory `cwd`. -/
def resolve (cwd name : String) : String :=
  if name.data.head? = some '/' then pathClean name else pathJoin [cwd, name]

/-- The effect of one event on the set of existing files: a successful
`os.Create` adds the file, a successful `os.Remove` deletes it. -/
def fsStep (cwd : String) (fs : List String) : Event → List String
  | Event.osCreate name none => resolve cwd name :: fs.filter (fun f => f ≠ resolve cwd name)
  | Event.osRemove name none => fs.filter (fun f => f ≠ resolve cwd name)
  | _ => fs

/-- The files existing after the events of a trace. -/
def filesAfter (cwd : String) (fs : List String) (trace : List Event) : List String :=
  trace.foldl (fsStep cwd) fs

/-! ## Invariants of a run -/

/-- The commands run and messages sent by the lxc goroutine when it stands at
program counter `pc`. -/
def orchExpected (inst localPath : String) (pc : OrchPc) : List Event :=
  let imp := ["lxc", "import", localPath]
  let st := ["lxc", "start", inst]
  match pc with
  | OrchPc.notSpawned => []
  | OrchPc.runImport => []
  | OrchPc.importFailedSend e => [Event.cmdRun imp (some e)]
  | OrchPc.importFailedFatal e => [Event.cmdRun imp (some e), Event.send (Msg.err e)]
  | OrchPc.importFataled e => [Event.cmdRun imp (some e), Event.send (Msg.err e)]
  | OrchPc.runStart => [Event.cmdRun imp none]
  | OrchPc.startFailedSend e => [Event.cmdRun imp none, Event.cmdRun st (some e)]
  | OrchPc.startFailedFatal e =>
    [Event.cmdRun imp none, Event.cmdRun st (some e), Event.send (Msg.err e)]
  | OrchPc.startFataled e =>
    [Event.cmdRun imp none, Event.cmdRun st (some e), Event.send (Msg.err e)]
  | OrchPc.sendTrue => [Event.cmdRun imp none, Event.cmdRun st none]
  | OrchPc.finished => [Event.cmdRun imp none, Event.cmdRun st none, Event.send Msg.ok]

/-- The answers the lxc goroutine got agree with the environment. -/
def orchAgrees (w : World) (inst localPath : String) (cmd : List String) (pc : OrchPc) : Prop :=
  let imp := ["lxc", "import", localPath]
  let st := ["lxc", "start", inst]
  match pc with
  | OrchPc.notSpawned => True
  | OrchPc.runImport => cmd = imp
  | OrchPc.importFailedSend e => w.cmdRun imp = some e
  | OrchPc.importFailedFatal e => w.cmdRun imp = some e
  | OrchPc.importFataled e => w.cmdRun imp = some e
  | OrchPc.runStart => w.cmdRun imp = none
  | OrchPc.startFailedSend e => w.cmdRun imp = none ∧ w.cmdRun st = some e
  | OrchPc.startFailedFatal e => w.cmdRun imp = none ∧ w.cmdRun st = some e
  | OrchPc.startFataled e => w.cmdRun imp = none ∧ w.cmdRun st = some e
  | OrchPc.sendTrue => w.cmdRun imp = none ∧ w.cmdRun st = none
  | OrchPc.finished => w.cmdRun imp = none ∧ w.cmdRun st = none

/-- The lxc goroutine ended the process. -/
def orchFataled : OrchPc → Bool
  | OrchPc.importFataled _ => true
  | OrchPc.startFataled _ => true
  | _ => false

/-- The state of the UI goroutine agrees with the environment. -/
def uiAgrees (w : World) : UiPc → Prop
  | UiPc.notSpawned => True
  | UiPc.running => True
  | UiPc.failed e => w.uiStart = some e
  | UiPc.fataled => w.uiStart ≠ none
  | UiPc.done => w.uiStart = none

/-- The removals made when the main goroutine stands at its program counter,
and what lets it stand there. -/
def mainAgrees (w : World) (localPath : String) (ui : UiPc) (removed : List String) :
    MainPc → Prop
  | MainPc.waiting => removed = []
  | MainPc.removing => removed = [] ∧ ui = UiPc.done
  | MainPc.returned r =>
    ui = UiPc.notSpawned ∧ removed = [] ∨
    ui = UiPc.done ∧ removed = [localPath] ∧ r = w.osRemove localPath
  | MainPc.helpExit => ui = UiPc.notSpawned ∧ removed = []

/-- The stop of the UI and the removals in the trace, when the UI goroutine
and the main goroutine stand at their program counters. -/
def stopExpected (localPath : String) : UiPc → MainPc → List Event
  | UiPc.done, MainPc.returned r => [Event.uiStart none, Event.osRemove localPath r]
  | UiPc.done, _ => [Event.uiStart none]
  | _, _ => []

/-- What holds of every state of every run. -/
structure Inv (w : World) (s : State) : Prop where
  orchTrace : s.trace.filter Event.isOrch = orchExpected s.inst s.localPath s.orch
  stopTrace : s.trace.filter Event.isStopOrRemove = stopExpected s.localPath s.ui s.main
  orchWorld : orchAgrees w s.inst s.localPath s.cmd s.orch
  orchExit : orchFataled s.orch = true → s.exited = some 1
  uiWorld : uiAgrees w s.ui
  uiExit : s.ui = UiPc.fataled → s.exited = some 1
  mainOk : mainAgrees w s.localPath s.ui (removes s.trace) s.main
  mainExit : s.main = MainPc.helpExit → s.exited = some 1
  exitOk : ∀ n, s.exited = some n →
    n = 1 ∧ (s.main = MainPc.helpExit ∨ s.ui = UiPc.fataled ∨ orchFataled s.orch = true)
  spawned : s.ui = UiPc.notSpawned ↔ s.orch = OrchPc.notSpawned

/-! ## Concrete environments -/

/-- The end-to-end scenario: no instance `u2` exists yet (the check reports
it), the object has 1048576 bytes, every later call succeeds, and the staging
root is the working directory. -/
def scenarioWorld : World where
  bucket := "lxmin"
  stagingRoot := ""
  checkInstance := fun _ => some "instance not found"
  getObject := fun _ _ => none
  objStat := fun _ _ => (1048576, none)
  osCreate := fun _ => none
  ioCopy := (1048576, none)
  uiStart := none
  cmdRun := fun _ => none
  osRemove := fun _ => none

/-- The scenario, except that the instance check reports no error. -/
def checkPassesWorld : World :=
  { scenarioWorld with checkInstance := fun _ => none }

/-- The scenario, except that the object cannot be opened. -/
def noObjectWorld : World :=
  { scenarioWorld with getObject := fun _ _ => some "The specified key does not exist." }

/-- The scenario, except that the stream breaks after 4096 bytes. -/
def copyFailsWorld : World :=
  { scenarioWorld with ioCopy := (4096, some "unexpected EOF") }

/-- The scenario, except that `lxc import` fails. -/
def importFailsWorld : World :=
  { scenarioWorld with
    cmdRun := fun argv => if argv.take 2 = ["lxc", "import"] then some "exit status 1" else none }

/-- The scenario, except that the UI fails. -/
def uiFailsWorld : World :=
  { scenarioWorld with uiStart := some "could not open a new TTY" }

/-- The scenario, except that the staging root is `/var/lib/lxmin`. -/
def stagingWorld : World :=
  { scenarioWorld with stagingRoot := "/var/lib/lxmin" }

/-- The arguments of the scenario. -/
def scenarioArgs : List String := ["u2", "backup_2022-02-16-04-1040.tar.gz"]

/-- A schedule that lets the lxc goroutine run to its end, then the UI stop,
then the main goroutine finish. -/
def orchFirst : List Goroutine :=
  [Goroutine.orch, Goroutine.orch, Goroutine.orch, Goroutine.orch,
   Goroutine.ui, Goroutine.ui, Goroutine.main, Goroutine.main]

/-! ## Lemmas -/

theorem removes_append (t : List Event) (e : Event) :
    removes (t ++ [e]) = removes t ++ removes [e] := by
  induction t with
  | nil => rfl
  | cons a t ih => cases a <;> simp [removes, ih]

theorem inv_orchStep (w : World) (s s' : State) (hx : s.exited = none) (h : Inv w s)
    (hs : orchStep w s = some s') : Inv w s' := by
  obtain ⟨h1, h0, h2, h3, h4, h5, h6, h7, h8, h9⟩ := h
  obtain ⟨trace, inst, lp, cmd, main, ui, orch, exited⟩ := s
  simp only at hx
  subst hx
  simp only at h1 h0 h2 h3 h4 h5 h6 h7 h8 h9
  cases orch <;> simp only [orchStep, logFatalln, reduceCtorEq] at hs
  case runImport =>
    simp only [orchAgrees] at h2
    subst h2
    split at hs <;> simp only [Option.some.injEq] at hs <;> subst hs <;>
      constructor <;>
      simp_all [orchExpected, orchAgrees, orchFataled, removes_append, removes, Event.isOrch,
        Event.isStopOrRemove]
  case runStart =>
    split at hs <;> simp only [Option.some.injEq] at hs <;> subst hs <;>
      constructor <;>
      simp_all [orchExpected, orchAgrees, orchFataled, removes_append, removes, Event.isOrch,
        Event.isStopOrRemove]
  all_goals
    simp only [Option.some.injEq] at hs
    subst hs
    constructor <;>
      simp_all [orchExpected, orchAgrees, orchFataled, removes_append, removes, Event.isOrch,
        Event.isStopOrRemove]

theorem inv_uiStep (w : World) (s s' : State) (hx : s.exited = none) (h : Inv w s)
    (hs : uiStep w s = some s') : Inv w s' := by
  obtain ⟨h1, h0, h2, h3, h4, h5, h6, h7, h8, h9⟩ := h
  obtain ⟨trace, inst, lp, cmd, main, ui, orch, exited⟩ := s
  simp only at hx
  subst hx
  simp only at h1 h0 h2 h3 h4 h5 h6 h7 h8 h9
  cases ui <;> simp only [uiStep, logFatalln, reduceCtorEq] at hs
  case running =>
    split at hs <;> simp only [Option.some.injEq] at hs <;> subst hs <;>
      cases main <;> constructor <;>
      simp_all [uiAgrees, mainAgrees, removes_append, removes, Event.isOrch,
        Event.isStopOrRemove, stopExpected]
  case failed e =>
    simp only [Option.some.injEq] at hs
    subst hs
    cases main <;> constructor <;>
      simp_all [uiAgrees, mainAgrees, removes_append, removes, Event.isOrch,
        Event.isStopOrRemove, stopExpected]

theorem inv_mainStep (w : World) (s s' : State) (hx : s.exited = none) (h : Inv w s)
    (hs : mainStep w s = some s') : Inv w s' := by
  obtain ⟨h1, h0, h2, h3, h4, h5, h6, h7, h8, h9⟩ := h
  obtain ⟨trace, inst, lp, cmd, main, ui, orch, exited⟩ := s
  simp only at hx
  subst hx
  simp only at h1 h0 h2 h3 h4 h5 h6 h7 h8 h9
  cases main <;> simp only [mainStep, reduceCtorEq] at hs
  case waiting =>
    split at hs
    · simp only [Option.some.injEq] at hs
      subst hs
      constructor <;> simp_all [mainAgrees, stopExpected]
    · exact absurd hs (by simp)
  case removing =>
    simp only [Option.some.injEq] at hs
    subst hs
    constructor <;> simp_all [mainAgrees, removes_append, removes, Event.isOrch,
      Event.isStopOrRemove, stopExpected]

theorem inv_step (w : World) (g : Goroutine) (s s' : State) (h : Inv w s)
    (hs : step w g s = some s') : Inv w s' := by
  unfold step at hs
  split at hs
  · exact absurd hs (by simp)
  · rename_i hx
    have hx' : s.exited = none := by
      cases hq : s.exited <;> simp_all
    cases g
    · exact inv_mainStep w s s' hx' h hs
    · exact inv_uiStep w s s' hx' h hs
    · exact inv_orchStep w s s' hx' h hs

theorem inv_run (w : World) (sched : List Goroutine) (s : State) (h : Inv w s) :
    Inv w (run w sched s) := by
  induction sched generalizing s with
  | nil => exact h
  | cons g gs ih =>
    simp only [run]
    cases hs : step w g s with
    | none => exact ih s h
    | some s' => exact ih s' (inv_step w g s s' h hs)

theorem inv_stopped (w : World) (tr : List Event) (inst : String) (m : MainPc) (x : Option Nat)
    (htr : tr.filter Event.isOrch = []) (hst : tr.filter Event.isStopOrRemove = [])
    (hrm : removes tr = [])
    (hm : m = MainPc.helpExit ∧ x = some 1 ∨ (∃ r, m = MainPc.returned r) ∧ x = none) :
    Inv w (stopped tr inst m x) := by
  rcases hm with ⟨rfl, rfl⟩ | ⟨⟨r, rfl⟩, rfl⟩ <;> constructor <;>
    simp_all [stopped, orchExpected, orchAgrees, orchFataled, uiAgrees, mainAgrees, stopExpected]

theorem inv_enter (w : World) (args : List String) : Inv w (restoreMainEnter w args) := by
  unfold restoreMainEnter
  split
  · exact inv_stopped w _ _ _ _ (by simp [Event.isOrch]) (by simp [Event.isStopOrRemove])
      (by simp [removes]) (by simp)
  simp only
  split
  · exact inv_stopped w _ _ _ _ (by simp [Event.isOrch]) (by simp [Event.isStopOrRemove])
      (by simp [removes]) (by simp)
  split
  · exact inv_stopped w _ _ _ _ (by simp [Event.isOrch]) (by simp [Event.isStopOrRemove])
      (by simp [removes]) (by simp)
  split
  · exact inv_stopped w _ _ _ _ (by simp [Event.isOrch]) (by simp [Event.isStopOrRemove])
      (by simp [removes]) (by simp)
  split
  · exact inv_stopped w _ _ _ _ (by simp [Event.isOrch]) (by simp [Event.isStopOrRemove])
      (by simp [removes]) (by simp)
  split
  · exact inv_stopped w _ _ _ _ (by simp [Event.isOrch]) (by simp [Event.isStopOrRemove])
      (by simp [removes]) (by simp)
  split
  · exact inv_stopped w _ _ _ _ (by simp [Event.isOrch]) (by simp [Event.isStopOrRemove])
      (by simp [removes]) (by simp)
  constructor <;>
    simp [orchExpected, orchAgrees, orchFataled, uiAgrees, mainAgrees, removes, Event.isOrch,
      Event.isStopOrRemove, stopExpected]

/-! ## Runs that stop in the sequential part -/

theorem run_of_exited (w : World) (sched : List Goroutine) (s : State)
    (h : s.exited.isSome = true) : run w sched s = s := by
  induction sched with
  | nil => rfl
  | cons g gs ih => simp [run, step, h, ih]

theorem run_stopped (w : World) (sched : List Goroutine) (tr : List Event) (inst : String)
    (m : MainPc) (x : Option Nat) (hm : m ≠ MainPc.waiting) (hm' : m ≠ MainPc.removing) :
    run w sched (stopped tr inst m x) = stopped tr inst m x := by
  induction sched with
  | nil => rfl
  | cons g gs ih =>
    have hstep : step w g (stopped tr inst m x) = none := by
      cases g <;> cases m <;> simp_all [step, stopped, mainStep, uiStep, orchStep]
    simp [run, hstep, ih]

theorem restoreMainEnter_invalid (w : World) (args : List String)
    (h : trimSpace (argsGet args 0) = "" ∨ trimSpace (argsGet args 1) = "") :
    ∃ inst, restoreMainEnter w args = showAppHelpAndExit inst := by
  unfold restoreMainEnter
  split
  · exact ⟨_, rfl⟩
  simp only
  split
  · exact ⟨_, rfl⟩
  split
  · exact ⟨_, rfl⟩
  · simp_all

theorem inv_restoreMain (w : World) (args : List String) (sched : List Goroutine) :
    Inv w (restoreMain w args sched) :=
  inv_run w sched _ (inv_enter w args)

theorem sends_filter (t : List Event) : sends (t.filter Event.isOrch) = sends t := by
  induction t with
  | nil => rfl
  | cons a t ih => cases a <;> simp [List.filter, Event.isOrch, sends, ih]

theorem lxcCalls_filter (t : List Event) : lxcCalls (t.filter Event.isOrch) = lxcCalls t := by
  induction t with
  | nil => rfl
  | cons a t ih => cases a <;> simp [List.filter, Event.isOrch, lxcCalls, ih]

theorem isOrch_of_isStart (e : Event) (h : e.isStart = true) : e.isOrch = true := by
  cases e <;> simp_all [Event.isStart, Event.isOrch]

theorem isOrch_of_isImportFailed (e : Event) (h : e.isImportFailed = true) :
    e.isOrch = true := by
  cases e <;> simp_all [Event.isImportFailed, Event.isOrch]

theorem append_cons_eq_cons {α : Type} (l1 l2 rest : List α) (x a : α)
    (h : l1 ++ x :: l2 = a :: rest) : (l1 = [] ∧ x = a) ∨ (a ∈ l1 ∧ x ∈ rest) := by
  cases l1 with
  | nil =>
    simp only [List.nil_append, List.cons.injEq] at h
    exact Or.inl ⟨rfl, h.1⟩
  | cons b l1 =>
    simp only [List.cons_append, List.cons.injEq] at h
    right
    refine ⟨by simp [h.1], ?_⟩
    rw [← h.2]
    simp

theorem step_fields (w : World) (g : Goroutine) (s s' : State) (hs : step w g s = some s') :
    s'.inst = s.inst ∧ s'.localPath = s.localPath ∧
    (s'.orch = OrchPc.notSpawned ↔ s.orch = OrchPc.notSpawned) := by
  unfold step at hs
  split at hs
  · exact absurd hs (by simp)
  cases g
  · simp only [mainStep] at hs
    split at hs
    · split at hs
      · simp only [Option.some.injEq] at hs
        subst hs
        simp
      · exact absurd hs (by simp)
    · simp only [Option.some.injEq] at hs
      subst hs
      simp
    · exact absurd hs (by simp)
  · simp only [uiStep, logFatalln] at hs
    split at hs
    · split at hs <;> simp only [Option.some.injEq] at hs <;> subst hs <;> simp
    · simp only [Option.some.injEq] at hs
      subst hs
      simp
    · exact absurd hs (by simp)
  · simp only [orchStep, logFatalln] at hs
    split at hs
    · split at hs <;> simp only [Option.some.injEq] at hs <;> subst hs <;> simp_all
    · simp only [Option.some.injEq] at hs; subst hs; simp_all
    · simp only [Option.some.injEq] at hs; subst hs; simp_all
    · split at hs <;> simp only [Option.some.injEq] at hs <;> subst hs <;> simp_all
    · simp only [Option.some.injEq] at hs; subst hs; simp_all
    · simp only [Option.some.injEq] at hs; subst hs; simp_all
    · simp only [Option.some.injEq] at hs; subst hs; simp_all
    · exact absurd hs (by simp)

theorem run_fields (w : World) (sched : List Goroutine) (s : State) :
    (run w sched s).inst = s.inst ∧ (run w sched s).localPath = s.localPath ∧
    ((run w sched s).orch = OrchPc.notSpawned ↔ s.orch = OrchPc.notSpawned) := by
  induction sched generalizing s with
  | nil => simp [run]
  | cons g gs ih =>
    simp only [run]
    cases hs : step w g s with
    | none => exact ih s
    | some s' =>
      obtain ⟨h1, h2, h3⟩ := step_fields w g s s' hs
      obtain ⟨i1, i2, i3⟩ := ih s'
      simp only [Option.getD_some]
      exact ⟨i1.trans h1, i2.trans h2, i3.trans h3⟩

theorem restoreMainEnter_cases (w : World) (args : List String) :
    (restoreMainEnter w args).orch = OrchPc.notSpawned ∨
    ((restoreMainEnter w args).inst = trimSpace (argsGet args 0) ∧
     (restoreMainEnter w args).localPath =
       pathJoin [w.stagingRoot, trimSpace (argsGet args 1)]) := by
  unfold restoreMainEnter
  split
  · exact Or.inl rfl
  simp only
  split
  · exact Or.inl rfl
  split
  · exact Or.inl rfl
  split
  · exact Or.inl rfl
  split
  · exact Or.inl rfl
  split
  · exact Or.inl rfl
  split
  · exact Or.inl rfl
  exact Or.inr ⟨rfl, rfl⟩

theorem enter_importing_fields (w : World) (args : List String)
    (h : (restoreMainEnter w args).orch = OrchPc.runImport) :
    (restoreMainEnter w args).inst = trimSpace (argsGet args 0) ∧
    (restoreMainEnter w args).localPath =
      pathJoin [w.stagingRoot, trimSpace (argsGet args 1)] := by
  rcases restoreMainEnter_cases w args with h' | h'
  · rw [h] at h'
    exact absurd h' (by simp)
  · exact h'

theorem orchStep_none (w : World) (s : State) (h : orchStep w s = none) :
    s.orch = OrchPc.notSpawned ∨ orchEnded s = true := by
  obtain ⟨trace, inst, lp, cmd, main, ui, orch, exited⟩ := s
  cases orch <;> simp [orchStep, orchEnded] at h ⊢
  · split at h <;> simp at h
  · split at h <;> simp at h

theorem enter_importing_iff (w : World) (args : List String) :
    (restoreMainEnter w args).orch = OrchPc.runImport ↔
    (args.length ≤ 2 ∧ trimSpace (argsGet args 0) ≠ "" ∧ trimSpace (argsGet args 1) ≠ "" ∧
     w.checkInstance (trimSpace (argsGet args 0)) ≠ none ∧
     w.getObject w.bucket (pathJoin [trimSpace (argsGet args 0), trimSpace (argsGet args 1)])
       = none ∧
     (w.objStat w.bucket (pathJoin [trimSpace (argsGet args 0), trimSpace (argsGet args 1)])).2
       = none ∧
     w.osCreate (trimSpace (argsGet args 1)) = none) := by
  unfold restoreMainEnter
  split
  · simp [showAppHelpAndExit, stopped]; omega
  simp only
  split
  · simp_all [showAppHelpAndExit, stopped]
  split
  · simp_all [showAppHelpAndExit, stopped]
  split
  · simp_all [stopped]
  split
  · simp_all [stopped]
  split
  · simp_all [stopped]
  split
  · simp_all [stopped]
  simp_all

theorem run_append (w : World) (a b : List Goroutine) (s : State) :
    run w (a ++ b) s = run w b (run w a s) := by
  induction a generalizing s with
  | nil => rfl
  | cons g gs ih =>
    simp only [List.cons_append, run]
    exact ih _

theorem orchEnded_of_fataled (s : State) (h : orchFataled s.orch = true) :
    orchEnded s = true := by
  obtain ⟨trace, inst, lp, cmd, main, ui, orch, exited⟩ := s
  cases orch <;> simp_all [orchFataled, orchEnded]

theorem step_orch_of_ne (w : World) (g : Goroutine) (s s' : State)
    (hg : g ≠ Goroutine.orch) (hs : step w g s = some s') : s'.orch = s.orch := by
  unfold step at hs
  split at hs
  · exact absurd hs (by simp)
  cases g
  · simp only [mainStep] at hs
    split at hs
    · split at hs
      · simp only [Option.some.injEq] at hs
        subst hs
        rfl
      · exact absurd hs (by simp)
    · simp only [Option.some.injEq] at hs
      subst hs
      rfl
    · exact absurd hs (by simp)
  · simp only [uiStep, logFatalln] at hs
    split at hs
    · split at hs <;> simp only [Option.some.injEq] at hs <;> subst hs <;> rfl
    · simp only [Option.some.injEq] at hs
      subst hs
      rfl
    · exact absurd hs (by simp)
  · exact absurd rfl hg

theorem orchStep_turns (w : World) (s s' : State) (hs : orchStep w s = some s') :
    orchTurns s'.orch = orchTurns s.orch + 1 := by
  obtain ⟨trace, inst, lp, cmd, main, ui, orch, exited⟩ := s
  cases orch <;> simp only [orchStep, logFatalln, reduceCtorEq] at hs
  case runImport =>
    split at hs <;> simp only [Option.some.injEq] at hs <;> subst hs <;> rfl
  case runStart =>
    split at hs <;> simp only [Option.some.injEq] at hs <;> subst hs <;> rfl
  all_goals
    simp only [Option.some.injEq] at hs
    subst hs
    rfl

theorem orchEnded_run (w : World) (sched : List Goroutine) (s : State)
    (h : orchEnded s = true) : orchEnded (run w sched s) = true := by
  induction sched generalizing s with
  | nil => exact h
  | cons g gs ih =>
    simp only [run]
    cases hs : step w g s with
    | none => exact ih s h
    | some s' =>
      apply ih s'
      by_cases hg : g = Goroutine.orch
      · subst hg
        exfalso
        unfold step at hs
        split at hs
        · exact absurd hs (by simp)
        · obtain ⟨trace, inst, lp, cmd, main, ui, orch, exited⟩ := s
          cases orch <;> simp [orchEnded] at h <;> simp [orchStep] at hs
      · have ho := step_orch_of_ne w g s s' hg hs
        simp only [orchEnded, ho] at h ⊢
        exact h

theorem orch_progress (w : World) (sched : List Goroutine) (s : State) (hinv : Inv w s)
    (hns : s.orch ≠ OrchPc.notSpawned) :
    orchEnded (run w sched s) = true ∨ (run w sched s).ui = UiPc.fataled ∨
    orchTurns (run w sched s).orch = orchTurns s.orch + sched.count Goroutine.orch := by
  induction sched generalizing s with
  | nil => exact Or.inr (Or.inr (by simp [run]))
  | cons g gs ih =>
    simp only [run]
    cases hs : step w g s with
    | none =>
      simp only [Option.getD_none]
      by_cases hg : g = Goroutine.orch
      · subst hg
        cases hx : s.exited with
        | some n =>
          have hrun : run w gs s = s := run_of_exited w gs s (by simp [hx])
          rw [hrun]
          obtain ⟨-, h1 | h1 | h1⟩ := hinv.exitOk n hx
          · have h2 := hinv.mainOk
            rw [h1] at h2
            exact absurd (hinv.spawned.mp h2.1) hns
          · exact Or.inr (Or.inl h1)
          · exact Or.inl (orchEnded_of_fataled s h1)
        | none =>
          have ho : orchStep w s = none := by
            simpa [step, hx] using hs
          rcases orchStep_none w s ho with h1 | h1
          · exact absurd h1 hns
          · exact Or.inl (orchEnded_run w gs s h1)
      · rcases ih s hinv hns with h1 | h1 | h1
        · exact Or.inl h1
        · exact Or.inr (Or.inl h1)
        · right; right
          rw [h1, List.count_cons_of_ne (Ne.symm hg)]
    | some s' =>
      simp only [Option.getD_some]
      have hinv' := inv_step w g s s' hinv hs
      have hns' : s'.orch ≠ OrchPc.notSpawned := by
        rw [Ne, (step_fields w g s s' hs).2.2]
        exact hns
      rcases ih s' hinv' hns' with h1 | h1 | h1
      · exact Or.inl h1
      · exact Or.inr (Or.inl h1)
      · right; right
        by_cases hg : g = Goroutine.orch
        · subst hg
          have ho : orchStep w s = some s' := by
            unfold step at hs
            split at hs
            · exact absurd hs (by simp)
            · exact hs
          rw [h1, orchStep_turns w s s' ho, List.count_cons_self]
          omega
        · rw [h1, step_orch_of_ne w g s s' hg hs, List.count_cons_of_ne (Ne.symm hg)]

theorem ends_in_four (w : World) (s : State) (hinv : Inv w s)
    (hsp : s.ui ≠ UiPc.notSpawned) :
    (run w [Goroutine.ui, Goroutine.ui, Goroutine.main, Goroutine.main] s).exited ≠ none ∨
    ∃ r, (run w [Goroutine.ui, Goroutine.ui, Goroutine.main, Goroutine.main] s).main
      = MainPc.returned r := by
  obtain ⟨-, -, -, -, i4, i5, i6, i7, -, -⟩ := hinv
  obtain ⟨trace, inst, lp, cmd, main, ui, orch, exited⟩ := s
  simp only at hsp i4 i5 i6 i7
  cases exited with
  | some n => left; simp [run, step]
  | none =>
    cases ui <;> cases main <;> cases hu : w.uiStart <;>
      simp_all [run, step, uiStep, mainStep, logFatalln, mainAgrees, uiAgrees]

/-- The removal and the exit race when the import fails: under this schedule
the UI stops and the main goroutine removes the local path before the lxc
goroutine reaches `log.Fatalln`. -/
theorem import_failure_cleanup_race :
    removes (restoreMain importFailsWorld scenarioArgs
      [Goroutine.orch, Goroutine.orch, Goroutine.ui, Goroutine.main, Goroutine.main,
       Goroutine.orch]).trace = ["backup_2022-02-16-04-1040.tar.gz"] ∧
    (restoreMain importFailsWorld scenarioArgs
      [Goroutine.orch, Goroutine.orch, Goroutine.ui, Goroutine.main, Goroutine.main,
       Goroutine.orch]).exited = some 1 := by
  decide

/-! ## The claims -/

/-- C2: whenever the instance name or the backup name is empty after trimming
(a missing argument reads as the empty string), `restoreMain` prints the help
and ends the process with status 1, and the help is the only thing it did: no
instance check, no object-storage call, no file and no lxc command, and no
goroutine was spawned. -/
theorem restoreMain_invalid_arguments (w : World) (args : List String) (sched : List Goroutine)
    (h : trimSpace (argsGet args 0) = "" ∨ trimSpace (argsGet args 1) = "") :
    (restoreMain w args sched).exited = some 1 ∧
    (restoreMain w args sched).trace = [Event.showAppHelp] ∧
    (restoreMain w args sched).main = MainPc.helpExit ∧
    (restoreMain w args sched).ui = UiPc.notSpawned ∧
    (restoreMain w args sched).orch = OrchPc.notSpawned := by
  obtain ⟨inst, he⟩ := restoreMainEnter_invalid w args h
  have hr : restoreMain w args sched = showAppHelpAndExit inst := by
    rw [restoreMain, he]
    exact run_of_exited w sched _ rfl
  rw [hr]
  simp [showAppHelpAndExit, stopped]

/-- C2 at a concrete input: the backup name is missing. -/
theorem restoreMain_invalid_arguments_witness :
    (trimSpace (argsGet ["u2"] 0) = "" ∨ trimSpace (argsGet ["u2"] 1) = "") ∧
    (restoreMain scenarioWorld ["u2"] orchFirst).exited = some 1 ∧
    (restoreMain scenarioWorld ["u2"] orchFirst).trace = [Event.showAppHelp] ∧
    (restoreMain scenarioWorld ["u2"] orchFirst).main = MainPc.helpExit ∧
    (restoreMain scenarioWorld ["u2"] orchFirst).ui = UiPc.notSpawned ∧
    (restoreMain scenarioWorld ["u2"] orchFirst).orch = OrchPc.notSpawned :=
  ⟨by decide, restoreMain_invalid_arguments scenarioWorld ["u2"] orchFirst (by decide)⟩

/-- C10: for names that are not empty after trimming, when `checkInstance`
returns no error `restoreMain` returns nil at once: the instance check is the
only call it made (no object-storage call, no file created, no lxc command,
nothing removed) and no goroutine was spawned. -/
theorem restoreMain_check_passes_returns_nil (w : World) (instanceName backupName : String)
    (sched : List Goroutine)
    (hi : trimSpace instanceName ≠ "") (hb : trimSpace backupName ≠ "")
    (hc : w.checkInstance (trimSpace instanceName) = none) :
    (restoreMain w [instanceName, backupName] sched).main = MainPc.returned none ∧
    (restoreMain w [instanceName, backupName] sched).exited = none ∧
    (restoreMain w [instanceName, backupName] sched).trace =
      [Event.checkInstance (trimSpace instanceName) none] ∧
    (restoreMain w [instanceName, backupName] sched).ui = UiPc.notSpawned ∧
    (restoreMain w [instanceName, backupName] sched).orch = OrchPc.notSpawned := by
  have he : restoreMainEnter w [instanceName, backupName] =
      stopped [Event.checkInstance (trimSpace instanceName) none] (trimSpace instanceName)
        (MainPc.returned none) none := by
    simp [restoreMainEnter, argsGet, hi, hb, hc]
  rw [restoreMain, he, run_stopped w sched _ _ _ _ (by simp) (by simp)]
  simp [stopped]

/-- C10 at a concrete input. -/
theorem restoreMain_check_passes_returns_nil_witness :
    (restoreMain checkPassesWorld scenarioArgs orchFirst).main = MainPc.returned none ∧
    (restoreMain checkPassesWorld scenarioArgs orchFirst).exited = none ∧
    (restoreMain checkPassesWorld scenarioArgs orchFirst).trace =
      [Event.checkInstance (trimSpace "u2") none] ∧
    (restoreMain checkPassesWorld scenarioArgs orchFirst).ui = UiPc.notSpawned ∧
    (restoreMain checkPassesWorld scenarioArgs orchFirst).orch = OrchPc.notSpawned :=
  restoreMain_check_passes_returns_nil checkPassesWorld "u2" "backup_2022-02-16-04-1040.tar.gz"
    orchFirst (by decide) (by decide) rfl

/-- C1 (the code at the failing input): `checkInstance` returns an error, and
`restoreMain` goes on through the whole restore: it opens and stats the
object, creates and fills the local file, runs `lxc import` and `lxc start`,
removes the local path and returns nil. -/
theorem restoreMain_check_error_proceeds :
    scenarioWorld.checkInstance "u2" = some "instance not found" ∧
    (restoreMain scenarioWorld scenarioArgs orchFirst).trace =
      [Event.checkInstance "u2" (some "instance not found"),
       Event.getObject "lxmin" "u2/backup_2022-02-16-04-1040.tar.gz" none,
       Event.objStat 1048576 none,
       Event.progressStart 1048576,
       Event.osCreate "backup_2022-02-16-04-1040.tar.gz" none,
       Event.ioCopy 1048576 none,
       Event.barReaderClose,
       Event.cmdRun ["lxc", "import", "backup_2022-02-16-04-1040.tar.gz"] none,
       Event.cmdRun ["lxc", "start", "u2"] none,
       Event.send Msg.ok,
       Event.uiStart none,
       Event.osRemove "backup_2022-02-16-04-1040.tar.gz" none] ∧
    (restoreMain scenarioWorld scenarioArgs orchFirst).main = MainPc.returned none := by
  decide

/-- C3 (the code at the failing input): the object has 1048576 bytes and
`io.Copy` stops after 4096 bytes with an error; `restoreMain` drops that
result, runs `lxc import` and `lxc start` on what was written and returns
nil. -/
theorem restoreMain_short_copy_proceeds :
    copyFailsWorld.objStat "lxmin" "u2/backup_2022-02-16-04-1040.tar.gz" = (1048576, none) ∧
    copyFailsWorld.ioCopy = (4096, some "unexpected EOF") ∧
    Event.ioCopy 4096 (some "unexpected EOF") ∈
      (restoreMain copyFailsWorld scenarioArgs orchFirst).trace ∧
    lxcCalls (restoreMain copyFailsWorld scenarioArgs orchFirst).trace =
      [["lxc", "import", "backup_2022-02-16-04-1040.tar.gz"], ["lxc", "start", "u2"]] ∧
    (restoreMain copyFailsWorld scenarioArgs orchFirst).main = MainPc.returned none ∧
    (restoreMain copyFailsWorld scenarioArgs orchFirst).exited = none := by
  decide

/-- C4 (the code at the failing input): with staging root `/var/lib/lxmin`
and working directory `/root`, where an archive of that name already lies in
the staging root, fetch, import and start succeed and `restoreMain` returns
nil; the file it created is `/root/backup_2022-02-16-04-1040.tar.gz`, the file
it removed is the one under `/var/lib/lxmin`, and the created file is still
there afterwards. -/
theorem restoreMain_removes_other_path :
    created (restoreMain stagingWorld scenarioArgs orchFirst).trace =
      ["backup_2022-02-16-04-1040.tar.gz"] ∧
    removes (restoreMain stagingWorld scenarioArgs orchFirst).trace =
      ["/var/lib/lxmin/backup_2022-02-16-04-1040.tar.gz"] ∧
    (restoreMain stagingWorld scenarioArgs orchFirst).main = MainPc.returned none ∧
    filesAfter "/root" ["/var/lib/lxmin/backup_2022-02-16-04-1040.tar.gz"]
      (restoreMain stagingWorld scenarioArgs orchFirst).trace =
      ["/root/backup_2022-02-16-04-1040.tar.gz"] ∧
    resolve "/root" "backup_2022-02-16-04-1040.tar.gz" ∈
      filesAfter "/root" ["/var/lib/lxmin/backup_2022-02-16-04-1040.tar.gz"]
        (restoreMain stagingWorld scenarioArgs orchFirst).trace := by
  decide

/-- C6 is false as stated: here the fetch fails in the copy (4096 of 1048576
bytes, with an error), yet the local file was created before the copy and its
removal is attempted at the end. -/
theorem restoreMain_copy_failure_file_created_and_removed :
    copyFailsWorld.ioCopy.2 ≠ none ∧
    copyFailsWorld.ioCopy.1 < (copyFailsWorld.objStat "lxmin"
      "u2/backup_2022-02-16-04-1040.tar.gz").1 ∧
    created (restoreMain copyFailsWorld scenarioArgs orchFirst).trace =
      ["backup_2022-02-16-04-1040.tar.gz"] ∧
    removes (restoreMain copyFailsWorld scenarioArgs orchFirst).trace =
      ["backup_2022-02-16-04-1040.tar.gz"] := by
  decide

/-- C6 (amended): when the restore reaches the fetch and the object cannot be
opened, or cannot be statted, or the destination file cannot be created,
`restoreMain` returns that error, no local file has been created, no removal
is attempted and no lxc command is run. -/
theorem restoreMain_fetch_error_no_file_no_cleanup (w : World)
    (instanceName backupName : String) (sched : List Goroutine) (e : GoError)
    (hi : trimSpace instanceName ≠ "") (hb : trimSpace backupName ≠ "")
    (hc : w.checkInstance (trimSpace instanceName) ≠ none)
    (hf : w.getObject w.bucket (pathJoin [trimSpace instanceName, trimSpace backupName]) = some e ∨
      (w.getObject w.bucket (pathJoin [trimSpace instanceName, trimSpace backupName]) = none ∧
        (w.objStat w.bucket (pathJoin [trimSpace instanceName, trimSpace backupName])).2
          = some e) ∨
      (w.getObject w.bucket (pathJoin [trimSpace instanceName, trimSpace backupName]) = none ∧
        (w.objStat w.bucket (pathJoin [trimSpace instanceName, trimSpace backupName])).2
          = none ∧
        w.osCreate (trimSpace backupName) = some e)) :
    (restoreMain w [instanceName, backupName] sched).main = MainPc.returned (some e) ∧
    (restoreMain w [instanceName, backupName] sched).exited = none ∧
    created (restoreMain w [instanceName, backupName] sched).trace = [] ∧
    removes (restoreMain w [instanceName, backupName] sched).trace = [] ∧
    lxcCalls (restoreMain w [instanceName, backupName] sched).trace = [] := by
  obtain ⟨c, hc'⟩ := Option.ne_none_iff_exists'.mp hc
  have he : ∃ tr, restoreMainEnter w [instanceName, backupName] =
      stopped tr (trimSpace instanceName) (MainPc.returned (some e)) none ∧
      created tr = [] ∧ removes tr = [] ∧ lxcCalls tr = [] := by
    rcases hf with h1 | ⟨h1, h2⟩ | ⟨h1, h2, h3⟩
    · exact ⟨_, by simp [restoreMainEnter, argsGet, hi, hb, hc', h1]; rfl,
        by simp [created, h1], by simp [removes], by simp [lxcCalls]⟩
    · exact ⟨_, by simp [restoreMainEnter, argsGet, hi, hb, hc', h1, h2]; rfl,
        by simp [created], by simp [removes], by simp [lxcCalls]⟩
    · exact ⟨_, by simp [restoreMainEnter, argsGet, hi, hb, hc', h1, h2, h3]; rfl,
        by simp [created, h3], by simp [removes], by simp [lxcCalls]⟩
  obtain ⟨tr, he, h1, h2, h3⟩ := he
  rw [restoreMain, he, run_stopped w sched _ _ _ _ (by simp) (by simp)]
  simp [stopped, h1, h2, h3]

/-- C6 (amended) at a concrete input: the object does not exist. -/
theorem restoreMain_fetch_error_no_file_no_cleanup_witness :
    (restoreMain noObjectWorld scenarioArgs orchFirst).main =
      MainPc.returned (some "The specified key does not exist.") ∧
    (restoreMain noObjectWorld scenarioArgs orchFirst).exited = none ∧
    created (restoreMain noObjectWorld scenarioArgs orchFirst).trace = [] ∧
    removes (restoreMain noObjectWorld scenarioArgs orchFirst).trace = [] ∧
    lxcCalls (restoreMain noObjectWorld scenarioArgs orchFirst).trace = [] :=
  restoreMain_fetch_error_no_file_no_cleanup noObjectWorld "u2"
    "backup_2022-02-16-04-1040.tar.gz" orchFirst "The specified key does not exist."
    (by decide) (by decide) (by decide) (Or.inl rfl)

/-- C5: in every run, at every point: if an `lxc import` has failed, no
`lxc start` has been run; and wherever an `lxc start` stands in the trace, an
`lxc import` that returned no error stands before it. -/
theorem start_only_after_successful_import (w : World) (args : List String)
    (sched : List Goroutine) :
    ((∃ ev ∈ (restoreMain w args sched).trace, ev.isImportFailed = true) →
      ∀ ev ∈ (restoreMain w args sched).trace, ev.isStart = false) ∧
    (∀ pre ev post, (restoreMain w args sched).trace = pre ++ ev :: post →
      ev.isStart = true → ∃ ev' ∈ pre, ev'.isImportOk = true) := by
  have h := (inv_restoreMain w args sched).orchTrace
  generalize restoreMain w args sched = s at h ⊢
  obtain ⟨trace, inst, lp, cmd, main, ui, orch, exited⟩ := s
  simp only at h ⊢
  constructor
  · rintro ⟨ev, hev, hf⟩ ev' hev'
    cases hst : ev'.isStart with
    | false => rfl
    | true =>
      exfalso
      have m1 : ev ∈ trace.filter Event.isOrch :=
        List.mem_filter.mpr ⟨hev, isOrch_of_isImportFailed _ hf⟩
      have m2 : ev' ∈ trace.filter Event.isOrch :=
        List.mem_filter.mpr ⟨hev', isOrch_of_isStart _ hst⟩
      rw [h] at m1 m2
      cases orch <;> simp only [orchExpected, List.mem_cons, List.mem_singleton,
        List.not_mem_nil, or_false] at m1 m2 <;>
        (try rcases m1 with rfl | rfl | rfl) <;>
        (try rcases m2 with rfl | rfl | rfl) <;>
        simp_all [Event.isStart, Event.isImportFailed]
  · intro pre ev post htr hst
    have hf : pre.filter Event.isOrch ++ ev :: post.filter Event.isOrch =
        orchExpected inst lp orch := by
      rw [← h, htr, List.filter_append, List.filter_cons, isOrch_of_isStart ev hst]
      simp
    have key : ∀ a rest, orchExpected inst lp orch = a :: rest →
        (ev ∈ rest → a.isImportOk = true) → ev ≠ a → ∃ ev' ∈ pre, ev'.isImportOk = true := by
      intro a rest hsh hok hne
      rw [hsh] at hf
      rcases append_cons_eq_cons _ _ _ _ _ hf with ⟨_, h2⟩ | ⟨h1, h2⟩
      · exact absurd h2 hne
      · exact ⟨a, (List.mem_filter.mp h1).1, hok h2⟩
    cases orch
    case notSpawned => simp [orchExpected] at hf
    case runImport => simp [orchExpected] at hf
    all_goals
      refine key _ _ rfl ?_ ?_
      · intro hm
        simp only [List.mem_cons, List.mem_singleton, List.not_mem_nil, or_false] at hm
        all_goals first
          | rfl
          | (exfalso; rcases hm with rfl | rfl; all_goals simp [Event.isStart] at hst)
      · rintro rfl
        simp [Event.isStart] at hst

/-- C5 at a concrete input, the end-to-end scenario: the `lxc start` is the
ninth call of the run, and a successful `lxc import` stands among the eight
before it. -/
theorem start_only_after_successful_import_witness :
    ∃ ev' ∈ (restoreMain scenarioWorld scenarioArgs orchFirst).trace.take 8,
      ev'.isImportOk = true :=
  (start_only_after_successful_import scenarioWorld scenarioArgs orchFirst).2
    ((restoreMain scenarioWorld scenarioArgs orchFirst).trace.take 8)
    (Event.cmdRun ["lxc", "start", "u2"] none)
    ((restoreMain scenarioWorld scenarioArgs orchFirst).trace.drop 9)
    (by decide) (by decide)

/-- C7 is false as stated: here the importing phase is entered, `lxc import`
and `lxc start` both succeed, then `p.Start()` returns an error and the UI
goroutine ends the process with `log.Fatalln`: the run is over and no message
was ever sent. -/
theorem restoreMain_ui_failure_no_send :
    (restoreMainEnter uiFailsWorld scenarioArgs).orch = OrchPc.runImport ∧
    (restoreMain uiFailsWorld scenarioArgs
      [Goroutine.orch, Goroutine.orch, Goroutine.ui, Goroutine.ui]).trace =
      [Event.checkInstance "u2" (some "instance not found"),
       Event.getObject "lxmin" "u2/backup_2022-02-16-04-1040.tar.gz" none,
       Event.objStat 1048576 none,
       Event.progressStart 1048576,
       Event.osCreate "backup_2022-02-16-04-1040.tar.gz" none,
       Event.ioCopy 1048576 none,
       Event.barReaderClose,
       Event.cmdRun ["lxc", "import", "backup_2022-02-16-04-1040.tar.gz"] none,
       Event.cmdRun ["lxc", "start", "u2"] none,
       Event.uiStart (some "could not open a new TTY"),
       Event.logFatal "could not open a new TTY"] ∧
    sends (restoreMain uiFailsWorld scenarioArgs
      [Goroutine.orch, Goroutine.orch, Goroutine.ui, Goroutine.ui]).trace = [] ∧
    (restoreMain uiFailsWorld scenarioArgs
      [Goroutine.orch, Goroutine.orch, Goroutine.ui, Goroutine.ui]).exited = some 1 := by
  decide

/-- C7 (amended): in a restore that enters the importing phase
(`enter_importing_iff` says when), at every point of every run at most one
message has been sent to the UI; once the lxc goroutine is over, exactly one
has been sent, and it is the error of the import if
the import fails, else the error of the start if the start fails, else `true`;
and the lxc goroutine is over as soon as it was given four turns, unless the
UI goroutine ended the process before. -/
theorem orchestrator_sends_once_when_over (w : World) (args : List String)
    (h : (restoreMainEnter w args).orch = OrchPc.runImport) :
    (∀ sched, (sends (restoreMain w args sched).trace).length ≤ 1) ∧
    (∀ sched, orchEnded (restoreMain w args sched) = true →
      sends (restoreMain w args sched).trace = [terminalMsg w (restoreMainEnter w args)]) ∧
    (∀ sched, 4 ≤ sched.count Goroutine.orch →
      orchEnded (restoreMain w args sched) = true ∨
      (restoreMain w args sched).ui = UiPc.fataled) := by
  refine ⟨?_, ?_, ?_⟩
  · intro sched
    have hi := (inv_restoreMain w args sched).orchTrace
    rw [← sends_filter, hi]
    cases (restoreMain w args sched).orch <;> simp [orchExpected, sends]
  · intro sched hend
    have hinv := inv_restoreMain w args sched
    obtain ⟨f1, f2, -⟩ := run_fields w sched (restoreMainEnter w args)
    change (restoreMain w args sched).inst = _ at f1
    change (restoreMain w args sched).localPath = _ at f2
    have hi := hinv.orchTrace
    have hw := hinv.orchWorld
    rw [← sends_filter, hi]
    simp only [terminalMsg, ← f1, ← f2]
    revert hend hw
    generalize restoreMain w args sched = s
    obtain ⟨trace, inst, lp, cmd, main, ui, orch, exited⟩ := s
    cases orch <;> intro hend hw <;>
      simp_all [orchEnded, orchAgrees, orchExpected, sends]
  · intro sched hc
    have hp := orch_progress w sched (restoreMainEnter w args) (inv_enter w args)
      (by rw [h]; simp)
    change orchEnded (restoreMain w args sched) = true ∨
      (restoreMain w args sched).ui = UiPc.fataled ∨
      orchTurns (restoreMain w args sched).orch = _ at hp
    rcases hp with h1 | h1 | h1
    · exact Or.inl h1
    · exact Or.inr h1
    · left
      rw [h] at h1
      have h4 : 4 ≤ orchTurns (restoreMain w args sched).orch := by
        rw [h1]
        simp only [orchTurns]
        omega
      revert h4
      generalize restoreMain w args sched = s
      obtain ⟨trace, inst, lp, cmd, main, ui, orch, exited⟩ := s
      cases orch <;> simp [orchTurns, orchEnded]

/-- C7 (amended) at a concrete input: the import fails; the lxc goroutine has
its four turns, is over, and the import's error is the one message sent. -/
theorem orchestrator_sends_once_when_over_witness :
    (restoreMainEnter importFailsWorld scenarioArgs).orch = OrchPc.runImport ∧
    4 ≤ orchFirst.count Goroutine.orch ∧
    (orchEnded (restoreMain importFailsWorld scenarioArgs orchFirst) = true ∨
      (restoreMain importFailsWorld scenarioArgs orchFirst).ui = UiPc.fataled) ∧
    sends (restoreMain importFailsWorld scenarioArgs orchFirst).trace =
      [Msg.err "exit status 1"] :=
  ⟨by decide, by decide,
   (orchestrator_sends_once_when_over importFailsWorld scenarioArgs (by decide)).2.2 orchFirst
     (by decide),
   ((orchestrator_sends_once_when_over importFailsWorld scenarioArgs (by decide)).2.1 orchFirst
     (by decide)).trans (by decide)⟩

/-- C8 is false as stated: here the importing phase is entered and the import
fails; the lxc goroutine sends the error and ends the process with
`log.Fatalln`, and the run is over without any removal of the local
archive. -/
theorem restoreMain_import_failure_no_cleanup :
    (restoreMainEnter importFailsWorld scenarioArgs).orch = OrchPc.runImport ∧
    (restoreMain importFailsWorld scenarioArgs
      [Goroutine.orch, Goroutine.orch, Goroutine.orch]).trace =
      [Event.checkInstance "u2" (some "instance not found"),
       Event.getObject "lxmin" "u2/backup_2022-02-16-04-1040.tar.gz" none,
       Event.objStat 1048576 none,
       Event.progressStart 1048576,
       Event.osCreate "backup_2022-02-16-04-1040.tar.gz" none,
       Event.ioCopy 1048576 none,
       Event.barReaderClose,
       Event.cmdRun ["lxc", "import", "backup_2022-02-16-04-1040.tar.gz"] (some "exit status 1"),
       Event.send (Msg.err "exit status 1"),
       Event.logFatal "exit status 1"] ∧
    removes (restoreMain importFailsWorld scenarioArgs
      [Goroutine.orch, Goroutine.orch, Goroutine.orch]).trace = [] ∧
    (restoreMain importFailsWorld scenarioArgs
      [Goroutine.orch, Goroutine.orch, Goroutine.orch]).exited = some 1 := by
  decide

/-- C8 (amended): in a restore that enters the importing phase, whatever the
outcome of the import and the start:
whenever `restoreMain` has returned, it has made exactly one removal, that of
`path.Join(StagingRoot, backup)`, and returned its result; every removal in a
trace stands after the stop of the UI without error; from any point of a run,
two turns of the UI goroutine and two of the main goroutine end the run, by
the return of `restoreMain` or by an exit of the process; the process exits
only with status 1 and only through `log.Fatalln` in the UI goroutine or the
lxc goroutine; and it never exits when the import, the start and the UI all
succeed. -/
theorem cleanup_on_return (w : World) (args : List String)
    (h : (restoreMainEnter w args).orch = OrchPc.runImport) :
    (∀ sched r, (restoreMain w args sched).main = MainPc.returned r →
      removes (restoreMain w args sched).trace =
        [pathJoin [w.stagingRoot, trimSpace (argsGet args 1)]] ∧
      r = w.osRemove (pathJoin [w.stagingRoot, trimSpace (argsGet args 1)])) ∧
    (∀ sched pre ev post, (restoreMain w args sched).trace = pre ++ ev :: post →
      ev.isRemove = true → Event.uiStart none ∈ pre) ∧
    (∀ sched,
      (restoreMain w args
        (sched ++ [Goroutine.ui, Goroutine.ui, Goroutine.main, Goroutine.main])).exited
          ≠ none ∨
      ∃ r, (restoreMain w args
        (sched ++ [Goroutine.ui, Goroutine.ui, Goroutine.main, Goroutine.main])).main
          = MainPc.returned r) ∧
    (∀ sched n, (restoreMain w args sched).exited = some n →
      n = 1 ∧ ((restoreMain w args sched).ui = UiPc.fataled ∨
        orchFataled (restoreMain w args sched).orch = true)) ∧
    (w.cmdRun ["lxc", "import", pathJoin [w.stagingRoot, trimSpace (argsGet args 1)]] = none →
      w.cmdRun ["lxc", "start", trimSpace (argsGet args 0)] = none →
      w.uiStart = none →
      ∀ sched, (restoreMain w args sched).exited = none) := by
  obtain ⟨e1, e2⟩ := enter_importing_fields w args h
  have facts : ∀ sched, Inv w (restoreMain w args sched) ∧
      (restoreMain w args sched).inst = trimSpace (argsGet args 0) ∧
      (restoreMain w args sched).localPath =
        pathJoin [w.stagingRoot, trimSpace (argsGet args 1)] ∧
      (restoreMain w args sched).orch ≠ OrchPc.notSpawned := by
    intro sched
    obtain ⟨f1, f2, f3⟩ := run_fields w sched (restoreMainEnter w args)
    refine ⟨inv_restoreMain w args sched, f1.trans e1, f2.trans e2, ?_⟩
    change ¬ (run w sched (restoreMainEnter w args)).orch = _
    rw [f3, h]
    simp
  have exits : ∀ sched n, (restoreMain w args sched).exited = some n →
      n = 1 ∧ ((restoreMain w args sched).ui = UiPc.fataled ∨
        orchFataled (restoreMain w args sched).orch = true) := by
    intro sched n hx
    obtain ⟨hinv, -, -, hns⟩ := facts sched
    obtain ⟨hn, h1 | h1 | h1⟩ := hinv.exitOk n hx
    · have h2 := hinv.mainOk
      rw [h1] at h2
      exact absurd (hinv.spawned.mp h2.1) hns
    · exact ⟨hn, Or.inl h1⟩
    · exact ⟨hn, Or.inr h1⟩
  refine ⟨?_, ?_, ?_, exits, ?_⟩
  · intro sched r hr
    obtain ⟨hinv, -, g2, hns⟩ := facts sched
    have hm := hinv.mainOk
    rw [hr, g2] at hm
    rcases hm with ⟨h1, -⟩ | ⟨-, h2, h3⟩
    · exact absurd (hinv.spawned.mp h1) hns
    · exact ⟨h2, h3⟩
  · intro sched pre ev post htr hev
    have hst := (inv_restoreMain w args sched).stopTrace
    have hev' : ev.isStopOrRemove = true := by
      cases ev <;> simp_all [Event.isRemove, Event.isStopOrRemove]
    have hf : pre.filter Event.isStopOrRemove ++ ev :: post.filter Event.isStopOrRemove =
        stopExpected (restoreMain w args sched).localPath (restoreMain w args sched).ui
          (restoreMain w args sched).main := by
      rw [← hst, htr, List.filter_append, List.filter_cons, hev']
      simp
    have key : ∀ rest, stopExpected (restoreMain w args sched).localPath
        (restoreMain w args sched).ui (restoreMain w args sched).main
          = Event.uiStart none :: rest → Event.uiStart none ∈ pre := by
      intro rest hsh
      rw [hsh] at hf
      rcases append_cons_eq_cons _ _ _ _ _ hf with ⟨-, h2⟩ | ⟨h1, -⟩
      · rw [h2] at hev
        simp [Event.isRemove] at hev
      · exact (List.mem_filter.mp h1).1
    revert hf key
    cases (restoreMain w args sched).ui <;> cases (restoreMain w args sched).main <;>
      intro hf key <;>
      first
        | exact key _ rfl
        | simp [stopExpected] at hf
  · intro sched
    obtain ⟨hinv, -, -, hns⟩ := facts sched
    have hsp : (restoreMain w args sched).ui ≠ UiPc.notSpawned :=
      fun hu => hns (hinv.spawned.mp hu)
    have hend := ends_in_four w (restoreMain w args sched) hinv hsp
    rw [restoreMain, run_append]
    exact hend
  · intro himp hst hui sched
    obtain ⟨hinv, g1, g2, -⟩ := facts sched
    cases hx : (restoreMain w args sched).exited with
    | none => rfl
    | some n =>
      exfalso
      obtain ⟨-, h1 | h1⟩ := exits sched n hx
      · have hu := hinv.uiWorld
        rw [h1] at hu
        exact hu hui
      · have ho := hinv.orchWorld
        rw [g1, g2] at ho
        revert h1 ho
        cases (restoreMain w args sched).orch <;> simp_all [orchFataled, orchAgrees]

/-- C8 (amended) at a concrete input, the end-to-end scenario: `restoreMain`
returns, having removed the local archive path. -/
theorem cleanup_on_return_witness :
    (restoreMainEnter scenarioWorld scenarioArgs).orch = OrchPc.runImport ∧
    (restoreMain scenarioWorld scenarioArgs orchFirst).main = MainPc.returned none ∧
    removes (restoreMain scenarioWorld scenarioArgs orchFirst).trace =
      [pathJoin [scenarioWorld.stagingRoot, trimSpace (argsGet scenarioArgs 1)]] ∧
    none = scenarioWorld.osRemove
      (pathJoin [scenarioWorld.stagingRoot, trimSpace (argsGet scenarioArgs 1)]) :=
  ⟨by decide, by decide,
   (cleanup_on_return scenarioWorld scenarioArgs (by decide)).1 orchFirst none (by decide)⟩

/-- C9: whenever an `lxc start` has returned no error in a run, the
external-tool calls of that run are exactly two, in this order: `lxc import`
on `path.Join(StagingRoot, backup)` with the trimmed backup name, then
`lxc start` on the trimmed instance name (no hypothesis on the schedule or on
the UI); and in a restore whose fetch got through (`enter_importing_iff`) and
whose import and start succeed, both calls have been made as soon as the lxc
goroutine was given two turns, unless the UI goroutine ended the process
before. -/
theorem lxc_calls_exactly_import_then_start (w : World) (args : List String) :
    (∀ sched, (∃ ev ∈ (restoreMain w args sched).trace, ev.isStartOk = true) →
      lxcCalls (restoreMain w args sched).trace =
        [["lxc", "import", pathJoin [w.stagingRoot, trimSpace (argsGet args 1)]],
         ["lxc", "start", trimSpace (argsGet args 0)]]) ∧
    ((restoreMainEnter w args).orch = OrchPc.runImport →
      w.cmdRun ["lxc", "import", pathJoin [w.stagingRoot, trimSpace (argsGet args 1)]] = none →
      w.cmdRun ["lxc", "start", trimSpace (argsGet args 0)] = none →
      ∀ sched, 2 ≤ sched.count Goroutine.orch →
        lxcCalls (restoreMain w args sched).trace =
          [["lxc", "import", pathJoin [w.stagingRoot, trimSpace (argsGet args 1)]],
           ["lxc", "start", trimSpace (argsGet args 0)]] ∨
        (restoreMain w args sched).ui = UiPc.fataled) := by
  have shape : ∀ sched, (restoreMain w args sched).orch = OrchPc.sendTrue ∨
      (restoreMain w args sched).orch = OrchPc.finished →
      lxcCalls (restoreMain w args sched).trace =
        [["lxc", "import", pathJoin [w.stagingRoot, trimSpace (argsGet args 1)]],
         ["lxc", "start", trimSpace (argsGet args 0)]] := by
    intro sched hpc
    obtain ⟨f1, f2, f3⟩ := run_fields w sched (restoreMainEnter w args)
    change (restoreMain w args sched).inst = _ at f1
    change (restoreMain w args sched).localPath = _ at f2
    change ((restoreMain w args sched).orch = _ ↔ _) at f3
    have hns : (restoreMainEnter w args).orch ≠ OrchPc.notSpawned := by
      intro hn
      have := f3.mpr hn
      rcases hpc with h1 | h1 <;> rw [h1] at this <;> simp at this
    rcases restoreMainEnter_cases w args with hc | ⟨e1, e2⟩
    · exact absurd hc hns
    · have ht := (inv_restoreMain w args sched).orchTrace
      rw [← lxcCalls_filter, ht, f1, f2, e1, e2]
      rcases hpc with h1 | h1 <;> rw [h1] <;> rfl
  constructor
  · intro sched hev
    apply shape
    obtain ⟨ev, hmem, hok⟩ := hev
    have horch : ev.isOrch = true := by
      cases ev <;> simp_all [Event.isStartOk, Event.isOrch]
    have hm : ev ∈ (restoreMain w args sched).trace.filter Event.isOrch :=
      List.mem_filter.mpr ⟨hmem, horch⟩
    rw [(inv_restoreMain w args sched).orchTrace] at hm
    revert hm
    cases (restoreMain w args sched).orch <;>
      simp only [orchExpected, List.mem_cons, List.mem_singleton, List.not_mem_nil,
        or_false, reduceCtorEq, or_true, true_or, implies_true] <;>
      intro hm <;>
      (try rcases hm with rfl | rfl | rfl) <;>
      simp_all [Event.isStartOk]
  · intro h himp hst sched hc
    obtain ⟨e1, e2⟩ := enter_importing_fields w args h
    obtain ⟨f1, f2, -⟩ := run_fields w sched (restoreMainEnter w args)
    change (restoreMain w args sched).inst = _ at f1
    change (restoreMain w args sched).localPath = _ at f2
    have hw := (inv_restoreMain w args sched).orchWorld
    rw [f1, f2, e1, e2] at hw
    have hp := orch_progress w sched (restoreMainEnter w args) (inv_enter w args)
      (by rw [h]; simp)
    change orchEnded (restoreMain w args sched) = true ∨
      (restoreMain w args sched).ui = UiPc.fataled ∨
      orchTurns (restoreMain w args sched).orch = _ at hp
    rcases hp with h1 | h1 | h1
    · left
      apply shape
      right
      revert h1 hw
      generalize restoreMain w args sched = s
      obtain ⟨trace, inst, lp, cmd, main, ui, orch, exited⟩ := s
      cases orch <;> simp_all [orchEnded, orchAgrees]
    · exact Or.inr h1
    · left
      apply shape
      rw [h] at h1
      have h2 : 2 ≤ orchTurns (restoreMain w args sched).orch := by
        rw [h1]
        simp only [orchTurns]
        omega
      revert h2 hw
      cases (restoreMain w args sched).orch <;> simp_all [orchTurns, orchAgrees]

/-- C9 at a concrete input, the end-to-end scenario: instance `u2`, backup
`backup_2022-02-16-04-1040.tar.gz`, staging root the working directory. -/
theorem lxc_calls_exactly_import_then_start_witness :
    (∃ ev ∈ (restoreMain scenarioWorld scenarioArgs orchFirst).trace, ev.isStartOk = true) ∧
    lxcCalls (restoreMain scenarioWorld scenarioArgs orchFirst).trace =
      [["lxc", "import", "backup_2022-02-16-04-1040.tar.gz"], ["lxc", "start", "u2"]] :=
  ⟨by decide,
   ((lxc_calls_exactly_import_then_start scenarioWorld scenarioArgs).1 orchFirst
     (by decide)).trans (by decide)⟩

end Lxmin
